import Mathlib

/-!
# Verification of the Heimdall extensibility kernel

Shallow embedding of the core components of the Heimdall application shell:
the priority-ordered publish/subscribe `EventBus` (src/core/event_bus.py),
the plugin registry (src/core/plugin_manager.py), the background task widget
(src/presentation/ui_components/async_widget.py) and the orchestrator
(src/core/orchestrator.py), together with proofs of the behavioural
properties stated in the specification.
-/

namespace Heimdall

/-! ## EventBus (src/core/event_bus.py)

`EventBus.subscribers` maps an event type to a list of `(callback, priority)`
pairs.  All properties below are about the list held for one fixed event
type, so the embedding works with that list directly.  Python callables are
modelled by opaque identities (`Nat`); `unsubscribe`'s `cb != callback` test
compares those identities, as Python does for function objects. -/

/-- One entry of `self.subscribers[event_type]`: the `(callback, priority)`
pair appended by `EventBus.subscribe`. -/
structure Subscription where
  handler : Nat
  prio : Int
deriving DecidableEq, Repr

/-- The ordering realised by `list.sort(key=lambda x: -x[1])`: entry `a` may
sit before entry `b` exactly when `b`'s priority does not exceed `a`'s
(higher priorities first). -/
def prioGE (a b : Subscription) : Prop := b.prio ≤ a.prio

instance : DecidableRel prioGE :=
  fun a b => inferInstanceAs (Decidable (b.prio ≤ a.prio))

instance : IsTotal Subscription prioGE :=
  ⟨fun a b => le_total b.prio a.prio⟩

instance : IsTrans Subscription prioGE :=
  ⟨fun _ _ _ hab hbc => le_trans hbc hab⟩

/-- `EventBus.subscribe` restricted to one event type: append the new
`(callback, priority)` pair, then re-sort by descending priority.  Python's
`list.sort` is a stable sort; `List.insertionSort` is stable for the same
comparison, hence computes the identical list. -/
def subscribe (subs : List Subscription) (s : Subscription) : List Subscription :=
  List.insertionSort prioGE (subs ++ [s])

/-- The subscriber list produced by a whole sequence of `subscribe` calls on
one event type, starting from the empty bus (`defaultdict(list)` yields `[]`
for a fresh event type). -/
def subscribeAll (regs : List Subscription) : List Subscription :=
  regs.foldl subscribe []

/-- `EventBus.unsubscribe` restricted to one event type: the list
comprehension `[(cb, prio) ... if cb != callback]` keeps exactly the entries
whose callback differs from the argument.  (When the event type has no entry
at all the method does nothing, which coincides with filtering the empty
list.) -/
def unsubscribe (subs : List Subscription) (h : Nat) : List Subscription :=
  subs.filter (fun s => s.handler ≠ h)

/-- One iteration of the `publish` loop: the callback is invoked; if it
raises, the exception is caught and its message appended to the error log,
and the loop moves on.  The accumulator holds (invocations so far, log so
far). -/
def handlerCall (env : Nat → Except String Unit)
    (acc : List Nat × List String) (s : Subscription) : List Nat × List String :=
  match env s.handler with
  | .ok _ => (acc.1 ++ [s.handler], acc.2)
  | .error e => (acc.1 ++ [s.handler], acc.2 ++ [e])

/-- `EventBus.publish` restricted to one event type: call every subscriber in
list order under the behaviour environment `env`; a raising handler is caught
and logged (`logger.error`), never re-raised.  The result is the invocation
sequence and the log; the function is total, so no exception reaches the
publisher. -/
def publish (env : Nat → Except String Unit) (subs : List Subscription) :
    List Nat × List String :=
  subs.foldl (handlerCall env) ([], [])

/-- The log entry produced by one handler, if any. -/
def errOf (env : Nat → Except String Unit) (s : Subscription) : Option String :=
  match env s.handler with
  | .ok _ => none
  | .error e => some e

lemma publish_foldl (env : Nat → Except String Unit) :
    ∀ (subs : List Subscription) (acc : List Nat × List String),
      subs.foldl (handlerCall env) acc
        = (acc.1 ++ subs.map (fun s => s.handler), acc.2 ++ subs.filterMap (errOf env)) := by
  intro subs
  induction subs with
  | nil => intro acc; simp
  | cons s rest ih =>
      intro acc
      rw [List.foldl_cons, ih]
      cases h : env s.handler <;>
        simp [handlerCall, errOf, h, List.filterMap_cons]

lemma publish_fst (env : Nat → Except String Unit) (subs : List Subscription) :
    (publish env subs).1 = subs.map (fun s => s.handler) := by
  unfold publish
  rw [publish_foldl]
  simp

lemma publish_snd (env : Nat → Except String Unit) (subs : List Subscription) :
    (publish env subs).2 = subs.filterMap (errOf env) := by
  unfold publish
  rw [publish_foldl]
  simp

lemma subscribeAll_concat (l : List Subscription) (x : Subscription) :
    subscribeAll (l ++ [x]) = subscribe (subscribeAll l) x := by
  unfold subscribeAll
  rw [List.foldl_append]
  rfl

lemma subscribeAll_perm (regs : List Subscription) :
    (subscribeAll regs).Perm regs := by
  induction regs using List.reverseRecOn with
  | nil => simp [subscribeAll]
  | append_singleton l x ih =>
      rw [subscribeAll_concat]
      exact (List.perm_insertionSort prioGE _).trans (ih.append_right [x])

lemma subscribeAll_sorted (regs : List Subscription) :
    List.Sorted prioGE (subscribeAll regs) := by
  induction regs using List.reverseRecOn with
  | nil => simp [subscribeAll]
  | append_singleton l x _ =>
      rw [subscribeAll_concat]
      exact List.sorted_insertionSort prioGE _

/-! Stability of the re-sort: the subsequence of entries holding any one
priority is untouched by `List.insertionSort prioGE`, because all its
members compare equal.  This is the formal content of "Python's sort is
stable". -/

lemma filter_orderedInsert_of_pos (q : Subscription → Bool) (a : Subscription)
    (ha : q a = true) (hq : ∀ y, q y = true → prioGE a y) :
    ∀ m : List Subscription,
      (List.orderedInsert prioGE a m).filter q = a :: m.filter q := by
  intro m
  induction m with
  | nil => simp [List.orderedInsert, ha]
  | cons b l ih =>
      by_cases hab : prioGE a b
      · rw [List.orderedInsert, if_pos hab]
        simp [List.filter_cons, ha]
      · have hb : q b = false := by
          cases hqb : q b
          · rfl
          · exact absurd (hq b hqb) hab
        rw [List.orderedInsert, if_neg hab]
        simp [List.filter_cons, hb, ih]

lemma filter_orderedInsert_of_neg (q : Subscription → Bool) (a : Subscription)
    (ha : q a = false) :
    ∀ m : List Subscription,
      (List.orderedInsert prioGE a m).filter q = m.filter q := by
  intro m
  induction m with
  | nil => simp [List.orderedInsert, ha]
  | cons b l ih =>
      by_cases hab : prioGE a b
      · rw [List.orderedInsert, if_pos hab]
        simp [List.filter_cons, ha]
      · rw [List.orderedInsert, if_neg hab]
        simp [List.filter_cons, ih]

lemma filter_insertionSort (q : Subscription → Bool)
    (hq : ∀ x y, q x = true → q y = true → prioGE x y) :
    ∀ l : List Subscription,
      (List.insertionSort prioGE l).filter q = l.filter q := by
  intro l
  induction l with
  | nil => rfl
  | cons a l ih =>
      rw [List.insertionSort]
      cases ha : q a
      · rw [filter_orderedInsert_of_neg q a ha, ih]
        simp [List.filter_cons, ha]
      · rw [filter_orderedInsert_of_pos q a ha (fun y hy => hq a y ha hy), ih]
        simp [List.filter_cons, ha]

/-- The tie-class subsequence for any priority value `c` after a whole
sequence of `subscribe` calls is exactly the tie-class subsequence of the
registration sequence: equal-priority handlers stay in registration order. -/
lemma subscribeAll_filter (c : Int) (regs : List Subscription) :
    (subscribeAll regs).filter (fun s => s.prio == c)
      = regs.filter (fun s => s.prio == c) := by
  induction regs using List.reverseRecOn with
  | nil => simp [subscribeAll]
  | append_singleton l x ih =>
      rw [subscribeAll_concat]
      unfold subscribe
      rw [filter_insertionSort]
      · rw [List.filter_append, List.filter_append, ih]
      · intro a b hai hbi
        have ha' : a.prio = c := by simpa using hai
        have hb' : b.prio = c := by simpa using hbi
        unfold prioGE
        rw [ha', hb']

/-- C1: for every sequence of `subscribe(event_type, handler, priority)`
calls on one event type, a subsequent `publish` invokes every handler
exactly once per registration (the invocation sequence is a permutation of
the registration sequence), in descending-priority order, with
equal-priority handlers invoked in registration order (for every priority
value the tie-class subsequence equals that of the registration sequence);
concretely, after subscribing handler 1 with priority 5, handler 2 with
priority 10 and handler 3 with priority 5, publish invokes 2, 1, 3. -/
theorem publish_respects_priority_order (env : Nat → Except String Unit)
    (regs : List Subscription) :
    ((publish env (subscribeAll regs)).1).Perm (regs.map (fun s => s.handler))
    ∧ (subscribeAll regs).Pairwise (fun a b => b.prio ≤ a.prio)
    ∧ (∀ c : Int,
        (subscribeAll regs).filter (fun s => s.prio == c)
          = regs.filter (fun s => s.prio == c))
    ∧ (publish env (subscribeAll [⟨1, 5⟩, ⟨2, 10⟩, ⟨3, 5⟩])).1 = [2, 1, 3] := by
  refine ⟨?_, subscribeAll_sorted regs, fun c => subscribeAll_filter c regs, ?_⟩
  · rw [publish_fst]
    exact (subscribeAll_perm regs).map (fun s => s.handler)
  · rw [publish_fst]
    decide

/-- C2: `publish` catches a raising handler's exception inside the bus (the
exception is logged, and `publish` is a total function, so nothing
propagates to the publisher), and every handler registered after the failing
one is still invoked: the invocation sequence is always the whole subscriber
list in order, whatever the handler behaviours; in a 3-handler chain where
the middle handler fails, the first and third handlers both run. -/
theorem publish_isolates_handler_failures (env : Nat → Except String Unit)
    (subs : List Subscription) :
    (publish env subs).1 = subs.map (fun s => s.handler)
    ∧ (publish env subs).2 = subs.filterMap (errOf env)
    ∧ (publish (fun h => if h = 2 then .error ("boom") else .ok ())
          [⟨1, 0⟩, ⟨2, 0⟩, ⟨3, 0⟩]
        = ([1, 2, 3], ["boom"])) := by
  exact ⟨publish_fst env subs, publish_snd env subs, by decide⟩

/-- C3: `unsubscribe(t, h)` removes every registration of `h` (no entry with
callback `h` survives, and a subsequent `publish` never invokes `h`), and
when `h` has no registration the call is a no-op returning the list
unchanged (and, being a total function, it raises nothing). -/
theorem unsubscribe_removes_all_registrations (subs : List Subscription)
    (h : Nat) (env : Nat → Except String Unit) :
    (∀ s ∈ unsubscribe subs h, s.handler ≠ h)
    ∧ h ∉ (publish env (unsubscribe subs h)).1
    ∧ ((∀ s ∈ subs, s.handler ≠ h) → unsubscribe subs h = subs) := by
  refine ⟨?_, ?_, ?_⟩
  · intro s hs
    have := List.of_mem_filter hs
    simpa using this
  · rw [publish_fst]
    intro hmem
    rcases List.mem_map.mp hmem with ⟨s, hs, hval⟩
    have := List.of_mem_filter hs
    simp only [decide_not, Bool.not_eq_true', decide_eq_false_iff_not] at this
    exact this hval
  · intro hnone
    apply List.filter_eq_self.mpr
    intro s hs
    simpa using hnone s hs

/-- Closed instance of C3's theorem: the no-op branch discharged at a
concrete subscriber list and an unregistered handler. -/
theorem unsubscribe_removes_all_registrations_witness :
    unsubscribe [⟨1, 5⟩, ⟨2, 3⟩] 9 = [⟨1, 5⟩, ⟨2, 3⟩] :=
  (unsubscribe_removes_all_registrations [⟨1, 5⟩, ⟨2, 3⟩] 9
      (fun _ => .ok ())).2.2 (by decide)

/-! ## Background tasks (src/presentation/ui_components/async_widget.py)

`AsyncWorker.run` executes the stored callable and emits exactly one Qt
signal: `taskFinished(result)` on return, `taskError(str(e))` on a raised
exception.  `AsyncWidget.run_async` appends the fresh `(thread, worker)`
pair to `self.tasks`, and the connected slots `_on_task_complete` /
`_on_task_error` quit the thread, invoke the supplied callback (or, for
errors with no callback, pop a critical message box), and finally call
`_cleanup_task`, which removes the pair from `self.tasks` only if it is
still present.  The callable's execution is modelled by its outcome
(`Except`): a Python exception carries a type name and a message. -/

/-- A raised Python exception: its class name and its message.  `str(e)`
renders only the message text. -/
structure PyExc where
  ty : String
  msg : String
deriving DecidableEq, Repr

/-- Python `str(e)` applied to an exception: the message, with the type
information discarded. -/
def pyStr (e : PyExc) : String := e.msg

/-- The one signal `AsyncWorker.run` emits. -/
inductive WorkerSignal (V : Type) where
  | taskFinished (result : V)
  | taskError (msg : String)
deriving DecidableEq, Repr

/-- `AsyncWorker.run`: the whole body sits in one `try`; on return the
result is emitted through `taskFinished`, on a raised exception `str(e)` is
emitted through `taskError`. -/
def workerRun {V : Type} (call : Except PyExc V) : WorkerSignal V :=
  match call with
  | .ok r => WorkerSignal.taskFinished r
  | .error e => WorkerSignal.taskError (pyStr e)

/-- Observable actions of `AsyncWidget` while finishing a task, in program
order. -/
inductive WidgetEvent (V : Type) where
  | threadQuit
  | loggedError (msg : String)
  | invokedOnComplete (result : V)
  | invokedOnError (msg : String)
  | showedErrorDialog (msg : String)
  | cleanedUp
deriving DecidableEq, Repr

/-- `AsyncWidget.run_async` (state part): append the fresh
`(thread, worker)` pair to `self.tasks`.  Handles are modelled as
(thread id, worker id) pairs. -/
def runAsync (tasks : List (Nat × Nat)) (h : Nat × Nat) : List (Nat × Nat) :=
  tasks ++ [h]

/-- `AsyncWidget._cleanup_task`: remove the pair from `self.tasks` if it is
still there (`list.remove` drops the first occurrence); otherwise do
nothing. -/
def cleanupTask (tasks : List (Nat × Nat)) (h : Nat × Nat) : List (Nat × Nat) :=
  if h ∈ tasks then tasks.erase h else tasks

/-- `AsyncWidget._on_task_complete`: quit the thread, invoke `on_complete`
with the result when one was supplied, then clean up.  Returns the new task
set and the trace of actions in program order (`cleanedUp` last). -/
def onTaskComplete {V : Type} (tasks : List (Nat × Nat)) (h : Nat × Nat)
    (result : V) (hasCallback : Bool) :
    List (Nat × Nat) × List (WidgetEvent V) :=
  (cleanupTask tasks h,
   [WidgetEvent.threadQuit]
     ++ (if hasCallback then [WidgetEvent.invokedOnComplete result] else [])
     ++ [WidgetEvent.cleanedUp])

/-- `AsyncWidget._on_task_error`: quit the thread, log the error, invoke
`on_error` with the error string when one was supplied and otherwise show a
critical message box, then clean up. -/
def onTaskError {V : Type} (tasks : List (Nat × Nat)) (h : Nat × Nat)
    (msg : String) (hasCallback : Bool) :
    List (Nat × Nat) × List (WidgetEvent V) :=
  (cleanupTask tasks h,
   [WidgetEvent.threadQuit, WidgetEvent.loggedError msg]
     ++ (if hasCallback then [WidgetEvent.invokedOnError msg]
         else [WidgetEvent.showedErrorDialog msg])
     ++ [WidgetEvent.cleanedUp])

/-- One submitted task end to end: `run_async` stores the handle and starts
the worker; the worker emits exactly one signal, and the matching slot
(`_on_task_complete` for `taskFinished`, `_on_task_error` for `taskError`)
runs. -/
def taskLifecycle {V : Type} (tasks : List (Nat × Nat)) (h : Nat × Nat)
    (call : Except PyExc V) (hasComplete hasError : Bool) :
    List (Nat × Nat) × List (WidgetEvent V) :=
  match workerRun call with
  | .taskFinished r => onTaskComplete (runAsync tasks h) h r hasComplete
  | .taskError m => onTaskError (runAsync tasks h) h m hasError

/-- Recognises an `on_complete` invocation in a trace. -/
def isOnComplete {V : Type} : WidgetEvent V → Bool
  | .invokedOnComplete _ => true
  | _ => false

/-- Recognises an `on_error` invocation in a trace. -/
def isOnError {V : Type} : WidgetEvent V → Bool
  | .invokedOnError _ => true
  | _ => false

/-- Recognises a critical-message-box display in a trace. -/
def isDialog {V : Type} : WidgetEvent V → Bool
  | .showedErrorDialog _ => true
  | _ => false

lemma cleanupTask_runAsync {tasks : List (Nat × Nat)} {h : Nat × Nat}
    (hfresh : h ∉ tasks) : cleanupTask (runAsync tasks h) h = tasks := by
  unfold cleanupTask runAsync
  rw [if_pos (List.mem_append_right tasks (List.mem_singleton.mpr rfl)),
    List.erase_append_right _ hfresh]
  simp

lemma cleanupTask_of_not_mem {tasks : List (Nat × Nat)} {h : Nat × Nat}
    (habs : h ∉ tasks) : cleanupTask tasks h = tasks := by
  unfold cleanupTask
  rw [if_neg habs]

/-- C4: each submitted task has exactly one terminal outcome: when the
callable raises, `on_error` is invoked exactly once and `on_complete` never;
when the callable returns a value, `on_complete` is invoked exactly once
with that very value and `on_error` never. -/
theorem task_exactly_one_terminal_outcome {V : Type} [DecidableEq V]
    (tasks : List (Nat × Nat)) (h : Nat × Nat) :
    (∀ e : PyExc,
      (taskLifecycle (V := V) tasks h (.error e) true true).2.countP isOnError = 1
      ∧ (taskLifecycle (V := V) tasks h (.error e) true true).2.countP isOnComplete
          = 0)
    ∧ (∀ v : V,
      (taskLifecycle tasks h (.ok v) true true).2.count
          (WidgetEvent.invokedOnComplete v) = 1
      ∧ (taskLifecycle tasks h (.ok v) true true).2.countP isOnComplete = 1
      ∧ (taskLifecycle tasks h (.ok v) true true).2.countP isOnError = 0) := by
  constructor
  · intro e
    exact ⟨rfl, rfl⟩
  · intro v
    refine ⟨?_, rfl, rfl⟩
    simp [taskLifecycle, workerRun, onTaskComplete, List.count_cons]

/-- C7: a fresh task handle is in the active-task set from submission on;
`_on_task_complete` removes it exactly once (the set returns to its
pre-submission contents and no copy of the handle remains), only after the
callback step in its program-order trace; running the completion handler a
second time for the same handle finds it absent and changes nothing. -/
theorem task_handle_retained_and_removed_once {V : Type}
    (tasks : List (Nat × Nat)) (h : Nat × Nat) (r : V) (cb : Bool)
    (hfresh : h ∉ tasks) :
    h ∈ runAsync tasks h
    ∧ (runAsync tasks h).count h = tasks.count h + 1
    ∧ (onTaskComplete (runAsync tasks h) h r cb).1 = tasks
    ∧ (onTaskComplete (runAsync tasks h) h r cb).1.count h = 0
    ∧ (onTaskComplete (onTaskComplete (runAsync tasks h) h r cb).1 h r cb).1
        = (onTaskComplete (runAsync tasks h) h r cb).1
    ∧ (onTaskComplete (runAsync tasks h) h r cb).2
        = [WidgetEvent.threadQuit]
            ++ (if cb then [WidgetEvent.invokedOnComplete r] else [])
            ++ [WidgetEvent.cleanedUp] := by
  have hstate : (onTaskComplete (runAsync tasks h) h r cb).1 = tasks :=
    cleanupTask_runAsync hfresh
  refine ⟨?_, ?_, hstate, ?_, ?_, rfl⟩
  · exact List.mem_append_right tasks (List.mem_singleton.mpr rfl)
  · simp [runAsync]
  · rw [hstate]
    exact List.count_eq_zero.mpr hfresh
  · show cleanupTask (onTaskComplete (runAsync tasks h) h r cb).1 h
        = (onTaskComplete (runAsync tasks h) h r cb).1
    rw [hstate]
    exact cleanupTask_of_not_mem hfresh

/-- Closed instance of C7's theorem: a fresh handle is appended on
submission and the completion handler returns the set to its pre-submission
contents. -/
theorem task_handle_retained_and_removed_once_witness :
    (1, 1) ∈ runAsync [(0, 0)] (1, 1)
    ∧ (onTaskComplete (runAsync [(0, 0)] (1, 1)) (1, 1) (0 : Nat) true).1
        = [(0, 0)] :=
  ⟨(task_handle_retained_and_removed_once [(0, 0)] (1, 1) (0 : Nat) true
      (by decide)).1,
   (task_handle_retained_and_removed_once [(0, 0)] (1, 1) (0 : Nat) true
      (by decide)).2.2.1⟩

/-- C8: a failing task submitted without an `on_error` callback produces a
visible surface — exactly one critical message box carrying `str(e)` — and
never invokes `on_error`; with an `on_error` callback supplied, the callback
is invoked exactly once instead and no message box is shown. -/
theorem task_failure_never_silent {V : Type} (tasks : List (Nat × Nat))
    (h : Nat × Nat) (e : PyExc) (hc : Bool) :
    ((taskLifecycle (V := V) tasks h (.error e) hc false).2.countP isDialog = 1
     ∧ WidgetEvent.showedErrorDialog (pyStr e)
         ∈ (taskLifecycle (V := V) tasks h (.error e) hc false).2
     ∧ (taskLifecycle (V := V) tasks h (.error e) hc false).2.countP isOnError
         = 0)
    ∧ ((taskLifecycle (V := V) tasks h (.error e) hc true).2.countP isOnError = 1
       ∧ (taskLifecycle (V := V) tasks h (.error e) hc true).2.countP isDialog
           = 0) := by
  refine ⟨⟨rfl, ?_, rfl⟩, rfl, rfl⟩
  simp [taskLifecycle, workerRun, onTaskError]

/-- C10: the value a failing task delivers is `str(e)` — the exception's
message string, not the exception object: the emitted signal carries
`e.msg`, that same string reaches `on_error`, and two exceptions agreeing on
their message (even with different types, such as a ValueError and a
TypeError) produce identical behaviour, so `on_error` can never inspect the
type. -/
theorem task_error_delivers_str_of_exception {V : Type}
    (tasks : List (Nat × Nat)) (h : Nat × Nat) (e : PyExc) :
    workerRun (V := V) (.error e) = WorkerSignal.taskError e.msg
    ∧ WidgetEvent.invokedOnError e.msg
        ∈ (taskLifecycle (V := V) tasks h (.error e) true true).2
    ∧ (∀ e' : PyExc, e'.msg = e.msg →
        taskLifecycle (V := V) tasks h (.error e') true true
          = taskLifecycle (V := V) tasks h (.error e) true true)
    ∧ workerRun (V := V) (.error ⟨"ValueError", "boom"⟩)
        = workerRun (V := V) (.error ⟨"TypeError", "boom"⟩) := by
  refine ⟨rfl, ?_, ?_, rfl⟩
  · simp [taskLifecycle, workerRun, onTaskError, pyStr]
  · intro e' hmsg
    simp [taskLifecycle, workerRun, pyStr, hmsg]

/-- Closed instance of C10's theorem: a TypeError and a ValueError with the
same message drive the widget identically. -/
theorem task_error_delivers_str_of_exception_witness :
    taskLifecycle (V := Nat) [] (0, 0) (.error ⟨"TypeError", "boom"⟩) true true
      = taskLifecycle (V := Nat) [] (0, 0) (.error ⟨"ValueError", "boom"⟩)
          true true :=
  (task_error_delivers_str_of_exception [] (0, 0)
      ⟨"ValueError", "boom"⟩).2.2.1 ⟨"TypeError", "boom"⟩ rfl

/-! ## Plugin registry (src/core/plugin_manager.py)

`PluginManager.plugins` is a Python dict from plugin name to instance,
modelled as an insertion-ordered association list whose keys are unique.
Plugin instances are opaque identities (`Nat`); a plugin's `initialize()`
behaviour is an `Except` outcome. -/

/-- The registry: insertion-ordered (name, instance) entries. -/
abbrev PluginRegistry := List (String × Nat)

/-- Python dict assignment `self.plugins[name] = instance`: if the name is
already a key, its entry keeps its position and gets the new instance;
otherwise the pair is appended. -/
def dictAssign : PluginRegistry → String → Nat → PluginRegistry
  | [], k, v => [(k, v)]
  | p :: rest, k, v =>
      if p.1 = k then (k, v) :: rest else p :: dictAssign rest k v

/-- `PluginManager.discover_plugins`, reduced to its registry effect: each
discovered instance is stored under its `name` with a dict assignment, in
discovery order. -/
def discoverPlugins (reg : PluginRegistry) (found : List (String × Nat)) :
    PluginRegistry :=
  found.foldl (fun r p => dictAssign r p.1 p.2) reg

/-- `PluginManager.get_plugin`: `self.plugins.get(plugin_name)`. -/
def getPlugin (reg : PluginRegistry) (k : String) : Option Nat :=
  (reg.find? (fun p => p.1 == k)).map (fun p => p.2)

/-- One iteration of the `initialize_plugins` loop: `plugin.initialize()` is
called; a raised exception is caught and its message logged, and the loop
moves to the next plugin. -/
def initCall (beh : Nat → Except String Unit)
    (acc : List Nat × List String) (p : String × Nat) : List Nat × List String :=
  match beh p.2 with
  | .ok _ => (acc.1 ++ [p.2], acc.2)
  | .error e => (acc.1 ++ [p.2], acc.2 ++ [e])

/-- `PluginManager.initialize_plugins`: call `initialize()` on every
registered plugin in registry order under behaviour `beh`, catching and
logging each failure; the registry itself is not touched.  Returns the
(unchanged) registry, the sequence of plugins whose `initialize()` was
called, and the log. -/
def initAllPlugins (reg : PluginRegistry) (beh : Nat → Except String Unit) :
    PluginRegistry × List Nat × List String :=
  (reg, reg.foldl (initCall beh) ([], []))

/-- The log entry produced by one plugin's `initialize()`, if any. -/
def initErrOf (beh : Nat → Except String Unit) (p : String × Nat) :
    Option String :=
  match beh p.2 with
  | .ok _ => none
  | .error e => some e

lemma getPlugin_dictAssign (reg : PluginRegistry) (k : String) (v : Nat) :
    getPlugin (dictAssign reg k v) k = some v := by
  induction reg with
  | nil => simp [dictAssign, getPlugin]
  | cons p rest ih =>
      by_cases hk : p.1 = k
      · simp [dictAssign, hk, getPlugin, List.find?]
      · rw [dictAssign, if_neg hk]
        unfold getPlugin
        rw [List.find?]
        have : (p.1 == k) = false := by simpa using hk
        rw [this]
        exact ih

lemma keys_dictAssign_of_mem (reg : PluginRegistry) (k : String) (v : Nat)
    (hmem : k ∈ reg.map Prod.fst) :
    (dictAssign reg k v).map Prod.fst = reg.map Prod.fst := by
  induction reg with
  | nil => simp at hmem
  | cons p rest ih =>
      by_cases hk : p.1 = k
      · simp [dictAssign, hk]
      · rw [dictAssign, if_neg hk]
        have hmem' : k ∈ rest.map Prod.fst := by
          rcases List.mem_map.mp hmem with ⟨q, hq, hqk⟩
          rcases List.mem_cons.mp hq with hq | hq
          · have hpk : p.1 = k := by rw [← hq]; exact hqk
            exact absurd hpk hk
          · exact List.mem_map.mpr ⟨q, hq, hqk⟩
        simp [ih hmem']

lemma keys_dictAssign_of_not_mem (reg : PluginRegistry) (k : String) (v : Nat)
    (hmem : k ∉ reg.map Prod.fst) :
    (dictAssign reg k v).map Prod.fst = reg.map Prod.fst ++ [k] := by
  induction reg with
  | nil => simp [dictAssign]
  | cons p rest ih =>
      have hk : p.1 ≠ k := by
        intro hcontra
        exact hmem (List.mem_map.mpr ⟨p, List.mem_cons_self p rest, hcontra⟩)
      rw [dictAssign, if_neg hk]
      have hmem' : k ∉ rest.map Prod.fst := by
        intro hcontra
        rcases List.mem_map.mp hcontra with ⟨q, hq, hqk⟩
        exact hmem (List.mem_map.mpr ⟨q, List.mem_cons_of_mem p hq, hqk⟩)
      simp [ih hmem']

lemma keys_nodup_dictAssign (reg : PluginRegistry) (k : String) (v : Nat)
    (hnd : (reg.map Prod.fst).Nodup) :
    ((dictAssign reg k v).map Prod.fst).Nodup := by
  by_cases hmem : k ∈ reg.map Prod.fst
  · rw [keys_dictAssign_of_mem reg k v hmem]
    exact hnd
  · rw [keys_dictAssign_of_not_mem reg k v hmem]
    refine List.Nodup.append hnd (List.nodup_singleton k) ?_
    intro a ha hb
    rw [List.mem_singleton] at hb
    exact hmem (hb ▸ ha)

lemma countP_key_dictAssign (reg : PluginRegistry) (k : String) (v : Nat)
    (hnd : (reg.map Prod.fst).Nodup) :
    (dictAssign reg k v).countP (fun p => p.1 == k) = 1 := by
  induction reg with
  | nil => simp [dictAssign]
  | cons p rest ih =>
      have hnd' : (rest.map Prod.fst).Nodup := (List.nodup_cons.mp hnd).2
      by_cases hk : p.1 = k
      · rw [dictAssign, if_pos hk]
        rw [List.countP_cons]
        have hzero : rest.countP (fun p => p.1 == k) = 0 := by
          apply List.countP_eq_zero.mpr
          intro q hq
          have hne : q.1 ≠ k := by
            intro hcontra
            exact (List.nodup_cons.mp hnd).1
              (hk ▸ hcontra ▸ List.mem_map.mpr ⟨q, hq, rfl⟩)
          simpa using hne
        simp [hzero]
      · rw [dictAssign, if_neg hk]
        rw [List.countP_cons]
        have : ((p.1 == k) = true) = False := by simpa using hk
        simp only [this]
        simpa using ih hnd'

/-- C5: when discovery registers two plugin instances under the same name,
the later instance silently replaces the earlier one: `get` on that name
returns the second instance, and the registry holds exactly one entry for
the name; concretely, discovering plugin "finance" twice leaves one entry
and `get "finance"` yields the second instance. -/
theorem plugin_name_collision_last_wins (reg : PluginRegistry) (k : String)
    (i₁ i₂ : Nat) (hnd : (reg.map Prod.fst).Nodup) :
    getPlugin (discoverPlugins reg [(k, i₁), (k, i₂)]) k = some i₂
    ∧ (discoverPlugins reg [(k, i₁), (k, i₂)]).countP (fun p => p.1 == k) = 1
    ∧ getPlugin (discoverPlugins [] [("finance", 1), ("finance", 2)]) "finance"
        = some 2
    ∧ (discoverPlugins [] [("finance", 1), ("finance", 2)]).length = 1 := by
  have hfold : discoverPlugins reg [(k, i₁), (k, i₂)]
      = dictAssign (dictAssign reg k i₁) k i₂ := rfl
  refine ⟨?_, ?_, by decide, by decide⟩
  · rw [hfold]
    exact getPlugin_dictAssign _ k i₂
  · rw [hfold]
    exact countP_key_dictAssign _ k i₂ (keys_nodup_dictAssign reg k i₁ hnd)

/-- Closed instance of C5's theorem: a collision on "finance" on top of a
one-plugin registry resolves to the second instance. -/
theorem plugin_name_collision_last_wins_witness :
    getPlugin (discoverPlugins [("alpha", 7)] [("finance", 1), ("finance", 2)])
      "finance" = some 2 :=
  (plugin_name_collision_last_wins [("alpha", 7)] "finance" 1 2 (by decide)).1

lemma initAll_foldl (beh : Nat → Except String Unit) :
    ∀ (reg : PluginRegistry) (acc : List Nat × List String),
      reg.foldl (initCall beh) acc
        = (acc.1 ++ reg.map (fun p => p.2), acc.2 ++ reg.filterMap (initErrOf beh)) := by
  intro reg
  induction reg with
  | nil => intro acc; simp
  | cons p rest ih =>
      intro acc
      rw [List.foldl_cons, ih]
      cases hp : beh p.2 <;>
        simp [initCall, initErrOf, hp, List.filterMap_cons]

/-- C6: `initialize_plugins` calls `initialize()` on every registered plugin
in registry order whatever each plugin's outcome (a raising plugin does not
stop the loop), each failure being caught and logged independently, and the
registry is left untouched, so a failing plugin remains registered;
concretely, over two plugins where the first fails, the second is still
called. -/
theorem init_all_plugins_isolated (reg : PluginRegistry)
    (beh : Nat → Except String Unit) :
    (initAllPlugins reg beh).1 = reg
    ∧ (initAllPlugins reg beh).2.1 = reg.map (fun p => p.2)
    ∧ (initAllPlugins reg beh).2.2 = reg.filterMap (initErrOf beh)
    ∧ (initAllPlugins [("a", 1), ("b", 2)]
        (fun i => if i = 1 then .error ("init failed") else .ok ())).2.1
        = [1, 2] := by
  refine ⟨rfl, ?_, ?_, by decide⟩
  · show (List.foldl (initCall beh) ([], []) reg).1 = reg.map (fun p => p.2)
    rw [initAll_foldl]
    simp
  · show (List.foldl (initCall beh) ([], []) reg).2
        = reg.filterMap (initErrOf beh)
    rw [initAll_foldl]
    simp

/-! ## Orchestrator (src/core/orchestrator.py)

`ApplicationOrchestrator.initialize` and `.shutdown` are straight-line
sequences of collaborator calls; the embedding records the sequence of
effects each performs. -/

/-- The collaborator calls the orchestrator can make. -/
inductive OrchStep where
  | loadConfig
  | initEventBus
  | discoverStep
  | initPluginsStep
  | shutdownPluginsStep
  | shutdownEventBus
deriving DecidableEq, Repr

/-- `ApplicationOrchestrator.initialize`: load configuration when a path is
given, then `event_bus.initialize()`, then
`plugin_manager.discover_plugins()`, then
`plugin_manager.initialize_plugins()`, in that order. -/
def orchStartup (configPath : Option String) : List OrchStep :=
  (match configPath with
   | some _ => [OrchStep.loadConfig]
   | none => [])
    ++ [OrchStep.initEventBus, OrchStep.discoverStep, OrchStep.initPluginsStep]

/-- `ApplicationOrchestrator.shutdown`: `plugin_manager.shutdown_plugins()`
then `event_bus.shutdown()`; the configuration manager has no shutdown
call. -/
def orchShutdown : List OrchStep :=
  [OrchStep.shutdownPluginsStep, OrchStep.shutdownEventBus]

/-- C9: startup performs, in this fixed order, configuration loading, event
bus initialisation, plugin discovery and plugin initialisation; shutdown
performs the reverse-dependency order — plugins first, then the event bus —
and contains no configuration step. -/
theorem orchestrator_fixed_order (p : String) :
    orchStartup (some p)
      = [OrchStep.loadConfig, OrchStep.initEventBus, OrchStep.discoverStep,
         OrchStep.initPluginsStep]
    ∧ orchStartup none
        = [OrchStep.initEventBus, OrchStep.discoverStep,
           OrchStep.initPluginsStep]
    ∧ orchShutdown = [OrchStep.shutdownPluginsStep, OrchStep.shutdownEventBus]
    ∧ OrchStep.loadConfig ∉ orchShutdown :=
  ⟨rfl, rfl, rfl, by decide⟩

end Heimdall
